import Mathlib

/-!
Shallow embedding of the message-reconciliation core of ConnectX-Mobile
(src/src/screens/ChatScreen.tsx, src/src/services/socket.ts,
src/src/services/api.ts).

Modelling conventions:
* JavaScript strings are `String`; `string | null` / `string | undefined`
  fields are `Option String` (`none` = null/undefined).  The JavaScript
  truthiness test `!s` on such a field (false for null, undefined and the
  empty string) is `jsTruthyStr`.
* ISO timestamp strings are modelled as `Int` (epoch milliseconds); the
  reconciliation code only creates and copies them, it never branches on
  their contents.
* `Set<string>` (processedMessageIds) is a `List String` used as a set.
* `Record<string, number>` (unreadCounts) is a total function
  `String → Nat`; the code's `u[k] || 0` default is the function value.
* The React effect in ChatScreen.tsx lines 145-150 rebuilds
  `processedMessageIds` from the message list after every message-list
  update; in the single-threaded cooperative model it runs before the next
  event handler, so it is folded into every transition that updates the
  message list (`rebuildProcessed`).
* Fire-and-forget side effects (auto-scroll, the delayed mark-read API
  call, console logging) and fields the reconciliation logic never reads
  (sender object, imageUrl, fileName, isRead bookkeeping) are omitted.
-/

namespace ConnectX

/-- Message record from src/src/services/api.ts lines 18-31, restricted to
the fields the reconciliation logic reads. -/
structure Message where
  id : String
  conversationId : Option String
  content : Option String
  senderId : String
  receiverId : String
  createdAt : Int
deriving DecidableEq, Repr

/-- Denormalized last-message summary on a conversation
(api.ts lines 36-41). -/
structure ConvSummary where
  content : Option String
  createdAt : Int
deriving DecidableEq, Repr

/-- Conversation record from api.ts lines 33-43; `participant` is collapsed
to its id, the only participant field the reconciliation logic consults. -/
structure Conversation where
  id : String
  participantId : String
  lastMessage : Option ConvSummary
  updatedAt : Int
deriving DecidableEq, Repr

/-- Kernel-computable `s.startsWith p` (JavaScript `s.startsWith(p)`),
phrased over the character list of the string. -/
def strStartsWith (s p : String) : Bool := p.data.isPrefixOf s.data

/-- Kernel-computable whitespace trim on the character list. -/
def trimChars (l : List Char) : List Char :=
  ((l.dropWhile Char.isWhitespace).reverse.dropWhile Char.isWhitespace).reverse

/-- Kernel-computable version of JavaScript `s.trim()`. -/
def jsTrim (s : String) : String := ⟨trimChars s.data⟩

/-- Kernel-computable emptiness test on a string. -/
def jsIsEmpty (s : String) : Bool := s.data.isEmpty

/-- JavaScript truthiness of a `string | null | undefined` value:
null, undefined and the empty string are falsy. -/
def jsTruthyStr : Option String → Bool
  | none => false
  | some s => !jsIsEmpty s

/-- Recursion core of `deduplicateMessages`: keep the first occurrence of
each message id (ChatScreen.tsx lines 72-79, the second pass). -/
def dedupGo (seen : List String) : List Message → List Message
  | [] => []
  | m :: rest =>
    if seen.contains m.id then dedupGo seen rest
    else m :: dedupGo (m.id :: seen) rest

/-- `deduplicateMessages` from ChatScreen.tsx lines 54-80: filters the list
down to the first occurrence of each id (the first pass only logs). -/
def deduplicateMessages (msgs : List Message) : List Message :=
  dedupGo [] msgs

/-- The temp-message match used by the socket `new-message` handler
(ChatScreen.tsx lines 368-370): a provisional entry with the same sender
and the same content as the inbound message. -/
def tempCandidate (message : Message) (m : Message) : Bool :=
  strStartsWith m.id "temp-" && m.senderId == message.senderId
    && m.content == message.content

/-- Message-list update performed by the socket `new-message` handler for
the active conversation (ChatScreen.tsx lines 356-380): dedupe, reject an
already-present identity, else replace a matching temp message in place,
else append. -/
def applyInboundToList (message : Message) (prev : List Message) :
    List Message :=
  let deduped := deduplicateMessages prev
  match deduped.find? (fun m => m.id == message.id) with
  | some _ => deduped
  | none =>
    match deduped.find? (tempCandidate message) with
    | some tempMessage =>
      deduped.map (fun m => if m.id == tempMessage.id then message else m)
    | none => deduped ++ [message]

/-- Message-list update performed on HTTP send success
(ChatScreen.tsx lines 466-482): dedupe, drop the temp entry, and append
the confirmed message unless its id is already present. -/
def confirmMessagesUpdate (tempId : String) (message : Message)
    (prev : List Message) : List Message :=
  let deduped := deduplicateMessages prev
  let withoutTemp := deduped.filter (fun m => !(m.id == tempId))
  match withoutTemp.find? (fun m => m.id == message.id) with
  | some _ => withoutTemp
  | none => withoutTemp ++ [message]

/-- Rebuild of the processed-id set from the message list, performed by the
React effect on ChatScreen.tsx lines 145-150:
`new Set(messages.map(m => m.id).filter(id => !id.startsWith('temp-')))`. -/
def rebuildProcessed (msgs : List Message) : List String :=
  (msgs.map Message.id).filter (fun i => !(strStartsWith i "temp-"))

/-- Number of entries of the list carrying the given id. -/
def idCount (i : String) (l : List Message) : Nat :=
  (l.filter (fun m => m.id == i)).length

/-- In-memory state of the ChatScreen component (ChatScreen.tsx lines
28-51), restricted to the reconciliation-relevant pieces.  `typingDeadline`
models the armed `typingTimeoutRef` countdown as its absolute expiry
instant; `alerts` collects the user-facing `Alert.alert` error titles. -/
structure ChatState where
  conversations : List Conversation
  selectedChat : Option String
  messages : List Message
  newMessage : String
  isSending : Bool
  isTyping : Bool
  isLoadingMessages : Bool
  unreadCounts : String → Nat
  processedMessageIds : List String
  typingDeadline : Option Int
  alerts : List String

/-- The component's initial state (the `useState` initial values on
ChatScreen.tsx lines 28-51), used as a baseline for concrete scenarios. -/
def initialChatState : ChatState :=
  { conversations := []
    selectedChat := none
    messages := []
    newMessage := ""
    isSending := false
    isTyping := false
    isLoadingMessages := false
    unreadCounts := fun _ => 0
    processedMessageIds := []
    typingDeadline := none
    alerts := [] }

/-- `updateConversationLocally` (ChatScreen.tsx lines 290-313): refresh the
denormalized last-message summary of every conversation the message
belongs to. -/
def updateConversationLocally (currentUserId : String) (message : Message)
    (convs : List Conversation) : List Conversation :=
  convs.map fun conv =>
    if (message.senderId == currentUserId
          && message.receiverId == conv.participantId)
        || (message.receiverId == currentUserId
          && message.senderId == conv.participantId) then
      { conv with
        lastMessage := some ⟨message.content, message.createdAt⟩,
        updatedAt := message.createdAt }
    else conv

/-- Socket `new-message` handler (ChatScreen.tsx lines 324-400).  The
early-return duplicate guard, the active/background classification, the
active-list update, the background unread increment and the summary update
are modelled; the React effect rebuilding `processedMessageIds` is folded
into the branch that updates the message list. -/
def handleNewMessage (currentUserId : String) (message : Message)
    (s : ChatState) : ChatState :=
  if s.processedMessageIds.contains message.id then s
  else
    let isForActive :=
      jsTruthyStr s.selectedChat && message.conversationId == s.selectedChat
    if isForActive then
      let newMessages := applyInboundToList message s.messages
      { s with
        messages := newMessages,
        processedMessageIds := rebuildProcessed newMessages,
        conversations :=
          updateConversationLocally currentUserId message s.conversations }
    else
      let targetConv := s.conversations.find? fun conv =>
        (message.senderId == conv.participantId
          && message.receiverId == currentUserId)
        || (message.receiverId == conv.participantId
          && message.senderId == currentUserId)
      let s' :=
        match targetConv with
        | some conv =>
          { s with
            unreadCounts := fun c =>
              if c = conv.id then s.unreadCounts conv.id + 1
              else s.unreadCounts c }
        | none => s
      { s' with
        processedMessageIds := message.id :: s.processedMessageIds,
        conversations :=
          updateConversationLocally currentUserId message s.conversations }

/-- Socket `user-typing` handler (ChatScreen.tsx lines 406-417): for a
counterpart typing in the active conversation, show the indicator and
re-arm the 2500 ms expiry countdown (clearing any previous one). -/
def handleUserTyping (currentUserId : String) (now : Int)
    (userId conversationId : String) (s : ChatState) : ChatState :=
  if some conversationId == s.selectedChat && userId != currentUserId then
    { s with isTyping := true, typingDeadline := some (now + 2500) }
  else s

/-- Socket `user-stopped-typing` handler (ChatScreen.tsx lines 419-425):
clears the indicator immediately (the armed countdown is left in place,
as in the source, where the timeout is not cancelled here). -/
def handleUserStoppedTyping (currentUserId : String)
    (userId conversationId : String) (s : ChatState) : ChatState :=
  if some conversationId == s.selectedChat && userId != currentUserId then
    { s with isTyping := false }
  else s

/-- Expiry of the armed typing countdown (the `setTimeout` callback on
ChatScreen.tsx lines 412-415): fires only while a countdown is armed. -/
def fireTypingTimeout (s : ChatState) : ChatState :=
  match s.typingDeadline with
  | some _ => { s with isTyping := false, typingDeadline := none }
  | none => s

/-- Switching the active conversation (the `[selectedChat]` effect on
ChatScreen.tsx lines 191-214 together with the synchronous head of
`loadMessages`, lines 255-262): set the selection, clear the processed-id
cache, start the reload, and reset this conversation's unread counter. -/
def selectConversation (cid : String) (s : ChatState) : ChatState :=
  { s with
    selectedChat := some cid,
    processedMessageIds := [],
    isLoadingMessages := true,
    unreadCounts := fun c => if c = cid then 0 else s.unreadCounts c }

/-- Resolution of the `getMessages` request issued by `loadMessages`
(ChatScreen.tsx lines 263-286): `setMessages(msgs)` is applied without any
comparison of `requestedConversationId` against the currently selected
conversation.  The parameter is carried to exhibit that it is not
consulted. -/
def resolveReload (requestedConversationId : String)
    (msgs : List Message) (s : ChatState) : ChatState :=
  { s with
    messages := msgs,
    processedMessageIds := rebuildProcessed msgs,
    isLoadingMessages := false }

/-- HTTP request issued by `sendMessage` (ChatScreen.tsx line 460). -/
structure SendRequest where
  conversationId : String
  receiverId : String
  content : String
  tempId : String
deriving DecidableEq, Repr

/-- Synchronous head of `sendMessage` up to the HTTP round trip
(ChatScreen.tsx lines 432-460): guard rejections, optimistic insert, and
the issued request.  Returns the updated state together with the request
(`none` when the action is rejected as a no-op). -/
def sendMessageStart (currentUserId : String) (now : Int) (tempId : String)
    (s : ChatState) : ChatState × Option SendRequest :=
  if jsIsEmpty (jsTrim s.newMessage) || !jsTruthyStr s.selectedChat
      || s.isSending then
    (s, none)
  else
    match s.conversations.find? (fun c => some c.id == s.selectedChat) with
    | none => (s, none)
    | some selectedConv =>
      let messageContent := jsTrim s.newMessage
      let optimisticMessage : Message :=
        { id := tempId
          conversationId := some selectedConv.id
          content := some messageContent
          senderId := currentUserId
          receiverId := selectedConv.participantId
          createdAt := now }
      let newMessages := s.messages ++ [optimisticMessage]
      ({ s with
          isSending := true,
          newMessage := "",
          messages := newMessages,
          processedMessageIds := rebuildProcessed newMessages },
        some
          { conversationId := selectedConv.id
            receiverId := selectedConv.participantId
            content := messageContent
            tempId := tempId })

/-- HTTP-success continuation of `sendMessage` (ChatScreen.tsx lines
462-485): record the confirmed id, swap the optimistic entry for the
confirmed message, and refresh the conversation summary. -/
def sendMessageSuccess (currentUserId : String) (tempId : String)
    (message : Message) (s : ChatState) : ChatState :=
  let newMessages := confirmMessagesUpdate tempId message s.messages
  { s with
    messages := newMessages,
    processedMessageIds := rebuildProcessed newMessages,
    conversations :=
      updateConversationLocally currentUserId message s.conversations,
    isSending := false }

/-- Failure continuation of `sendMessage` (ChatScreen.tsx lines 486-494):
surface the error, restore the draft to the sent content, and drop every
optimistic temp entry; the `finally` clause releases the in-flight flag. -/
def sendMessageFailure (messageContent : String) (s : ChatState) :
    ChatState :=
  let newMessages := s.messages.filter fun m => !(strStartsWith m.id "temp-")
  { s with
    alerts := s.alerts ++ ["Failed to send message"],
    newMessage := messageContent,
    messages := newMessages,
    processedMessageIds := rebuildProcessed newMessages,
    isSending := false }

/-- Store-level operation referencing the active conversation's message
list: a socket `new-message` delivery classified as active, or an HTTP send
confirmation. -/
inductive StoreOp where
  | inbound (m : Message)
  | confirm (tempId : String) (m : Message)
deriving DecidableEq, Repr

/-- Message list plus the processed-id cache, the state the two store-level
operations read and write. -/
structure StoreState where
  messages : List Message
  processed : List String
deriving DecidableEq, Repr

/-- One store-level step.  `inbound` is the active-conversation path of the
`new-message` handler (ChatScreen.tsx lines 326-330 and 356-380);
`confirm` is the HTTP-success path (lines 463-482).  Both fold in the
processed-id rebuild effect of lines 145-150. -/
def stepOp (s : StoreState) : StoreOp → StoreState
  | .inbound m =>
    if s.processed.contains m.id then s
    else
      let msgs := applyInboundToList m s.messages
      { messages := msgs, processed := rebuildProcessed msgs }
  | .confirm tempId m =>
    let msgs := confirmMessagesUpdate tempId m s.messages
    { messages := msgs, processed := rebuildProcessed msgs }

/-- Run a sequence of store-level operations. -/
def runOps (s : StoreState) (ops : List StoreOp) : StoreState :=
  ops.foldl stepOp s

/-- Store invariant: message ids are pairwise distinct and the processed-id
cache is the rebuild of the current list (the state produced by
`loadMessages` and re-established by the effect after every update). -/
def StoreInv (s : StoreState) : Prop :=
  (s.messages.map Message.id).Nodup
    ∧ s.processed = rebuildProcessed s.messages

/-- Well-formedness of a store operation: a confirmation's temporary id
carries the `temp-` namespace (ChatScreen.tsx line 443 constructs it so). -/
def OpWF : StoreOp → Prop
  | .inbound _ => True
  | .confirm tempId _ => strStartsWith tempId "temp-" = true

/-- The operation references the message identity `i`. -/
def OpRefs (i : String) : StoreOp → Prop
  | .inbound m => m.id = i
  | .confirm _ m => m.id = i

instance (s : StoreState) : Decidable (StoreInv s) := by
  unfold StoreInv
  infer_instance

instance : DecidablePred (OpWF) := fun op => by
  cases op <;> simp [OpWF] <;> infer_instance

instance (i : String) : DecidablePred (OpRefs i) := fun op => by
  cases op <;> simp [OpRefs] <;> infer_instance

/-- Outbound socket emissions of the service (src/src/services/socket.ts). -/
inductive SocketEmit where
  | typingStart (conversationId : String)
  | typingStop (conversationId : String)
  | markMessageRead (messageId : String)
  | joinConversation (conversationId : String)
  | leaveConversation (conversationId : String)
  | generic (event : String)
deriving DecidableEq, Repr

/-- Transport-facing state of the SocketService: `connected` is the
`this.socket?.connected` test (false when the handle is null or the
transport is down); `emitted` is the log of `socket.emit` calls that
actually reached the transport.  The service keeps no outbound queue. -/
structure SocketState where
  connected : Bool
  emitted : List SocketEmit
deriving DecidableEq, Repr

/-- `sendTyping` (socket.ts lines 205-211): emits `typing-start` or
`typing-stop` only while connected. -/
def socketSendTyping (conversationId : String) (isTyping : Bool)
    (s : SocketState) : SocketState :=
  if s.connected then
    { s with
      emitted := s.emitted
        ++ [if isTyping then SocketEmit.typingStart conversationId
            else SocketEmit.typingStop conversationId] }
  else s

/-- `markMessageAsRead` (socket.ts lines 213-217): emits only while
connected. -/
def socketMarkMessageAsRead (messageId : String) (s : SocketState) :
    SocketState :=
  if s.connected then
    { s with emitted := s.emitted ++ [SocketEmit.markMessageRead messageId] }
  else s

/-- Generic `emit` (socket.ts lines 250-254): emits only while connected. -/
def socketEmitGeneric (event : String) (s : SocketState) : SocketState :=
  if s.connected then
    { s with emitted := s.emitted ++ [SocketEmit.generic event] }
  else s

/-- Body of a successful message-creation HTTP response: either the
wrapped `{ message }` form or the message as the top-level payload
(api.ts line 178: `response.data.message || response.data`). -/
inductive ApiResponseData where
  | wrapped (message : Message)
  | plain (message : Message)
deriving DecidableEq, Repr

/-- `response.data.message || response.data` (api.ts lines 178 and 255). -/
def extractMessage : ApiResponseData → Message
  | .wrapped m => m
  | .plain m => m

/-- `if (!msg.conversationId) msg.conversationId = conversationId`
(api.ts lines 180 and 256). -/
def fillConversationId (conversationId : String) (msg : Message) :
    Message :=
  if jsTruthyStr msg.conversationId then msg
  else { msg with conversationId := some conversationId }

/-- `ConnectXAPI.sendMessage` (api.ts lines 169-182) restricted to its
response handling: the empty-id guard throws, otherwise the unwrapped
message gets the requested conversation id when the server omitted it. -/
def apiSendMessage (conversationId receiverId content : String)
    (resp : ApiResponseData) : Except String Message :=
  if jsIsEmpty conversationId then .error "conversationId is required"
  else .ok (fillConversationId conversationId (extractMessage resp))

/-- `ConnectXAPI.sendImageMessage` (api.ts lines 187-271) restricted to its
successful response handling (lines 255-257); there is no empty-id guard on
this path. -/
def apiSendImageMessage (conversationId receiverId : String)
    (resp : ApiResponseData) : Message :=
  fillConversationId conversationId (extractMessage resp)

/-- Modelled from the spec: the fingerprint relation §3/§4.1 describe for
matching an inbound message against a provisional entry — "same sender,
same payload, created within a short local time window"; `window` is the
window's width in milliseconds.  Used only to state claim C5, whose
time-window component is absent from the code. -/
def specFingerprintMatch (window : Int) (tmp msg : Message) : Prop :=
  tmp.senderId = msg.senderId ∧ tmp.content = msg.content
    ∧ msg.createdAt - tmp.createdAt ≤ window
    ∧ tmp.createdAt - msg.createdAt ≤ window

/-! Lemmas about `deduplicateMessages` and `idCount`. -/

theorem dedupGo_eq_self (seen : List String) (l : List Message)
    (hseen : ∀ m ∈ l, m.id ∉ seen)
    (hnodup : (l.map Message.id).Nodup) : dedupGo seen l = l := by
  induction l generalizing seen with
  | nil => rfl
  | cons a l ih =>
    rw [List.map_cons, List.nodup_cons] at hnodup
    have hc : seen.contains a.id = false := by
      simpa using hseen a (List.mem_cons_self a l)
    simp only [dedupGo, hc, Bool.false_eq_true, if_false]
    congr 1
    refine ih (a.id :: seen) (fun m hm => ?_) hnodup.2
    simp only [List.mem_cons, not_or]
    exact ⟨fun h => hnodup.1 (h ▸ List.mem_map_of_mem Message.id hm),
      hseen m (List.mem_cons_of_mem a hm)⟩

theorem deduplicateMessages_eq_self (l : List Message)
    (hnodup : (l.map Message.id).Nodup) : deduplicateMessages l = l :=
  dedupGo_eq_self [] l (fun _ _ => List.not_mem_nil _) hnodup

theorem idCount_nil (i : String) : idCount i [] = 0 := rfl

theorem idCount_cons (i : String) (a : Message) (l : List Message) :
    idCount i (a :: l)
      = (if a.id = i then 1 else 0) + idCount i l := by
  simp only [idCount, List.filter_cons]
  by_cases h : a.id = i <;> simp [h, Nat.add_comm]

theorem idCount_append (i : String) (l l' : List Message) :
    idCount i (l ++ l') = idCount i l + idCount i l' := by
  simp [idCount, List.filter_append]

theorem idCount_eq_zero (i : String) (l : List Message)
    (h : ∀ e ∈ l, e.id ≠ i) : idCount i l = 0 := by
  induction l with
  | nil => rfl
  | cons a l ih =>
    rw [idCount_cons, if_neg (h a (List.mem_cons_self a l)), Nat.zero_add]
    exact ih fun e he => h e (List.mem_cons_of_mem a he)

theorem idCount_eq_one (i : String) (l : List Message)
    (hnodup : (l.map Message.id).Nodup)
    (h : ∃ e ∈ l, e.id = i) : idCount i l = 1 := by
  induction l with
  | nil => simp at h
  | cons a l ih =>
    rw [List.map_cons, List.nodup_cons] at hnodup
    rw [idCount_cons]
    by_cases ha : a.id = i
    · rw [if_pos ha]
      have : idCount i l = 0 := by
        refine idCount_eq_zero i l fun e he hei => ?_
        exact hnodup.1 (ha ▸ hei ▸ List.mem_map_of_mem Message.id he)
      omega
    · rw [if_neg ha, Nat.zero_add]
      refine ih hnodup.2 ?_
      rcases h with ⟨e, he, hei⟩
      rcases List.mem_cons.mp he with rfl | he'
      · exact absurd hei ha
      · exact ⟨e, he', hei⟩

theorem exists_of_idCount_pos (i : String) (l : List Message)
    (h : 0 < idCount i l) : ∃ e ∈ l, e.id = i := by
  induction l with
  | nil => simp [idCount_nil] at h
  | cons a l ih =>
    rw [idCount_cons] at h
    by_cases ha : a.id = i
    · exact ⟨a, List.mem_cons_self a l, ha⟩
    · rw [if_neg ha, Nat.zero_add] at h
      rcases ih h with ⟨e, he, hei⟩
      exact ⟨e, List.mem_cons_of_mem a he, hei⟩

theorem idCount_filter_ne (i tid : String) (l : List Message)
    (h : i ≠ tid) :
    idCount i (l.filter fun m => !(m.id == tid)) = idCount i l := by
  induction l with
  | nil => rfl
  | cons a l ih =>
    by_cases ha : a.id = tid
    · have hai : a.id ≠ i := fun he => h (he.symm.trans ha)
      have h1 : (a :: l).filter (fun m => !(m.id == tid))
          = l.filter (fun m => !(m.id == tid)) := by
        simp [List.filter_cons, ha]
      rw [h1, ih, idCount_cons, if_neg hai, Nat.zero_add]
    · have h1 : (a :: l).filter (fun m => !(m.id == tid))
          = a :: l.filter (fun m => !(m.id == tid)) := by
        simp [List.filter_cons, ha]
      rw [h1, idCount_cons, idCount_cons, ih]

theorem idCount_map_replace_target (l : List Message) (tid : String)
    (msg : Message) (hfresh : ∀ e ∈ l, e.id ≠ msg.id) :
    idCount msg.id (l.map fun m => if m.id == tid then msg else m)
      = idCount tid l := by
  induction l with
  | nil => rfl
  | cons a l ih =>
    have ha := hfresh a (List.mem_cons_self a l)
    have hrest : ∀ e ∈ l, e.id ≠ msg.id :=
      fun e he => hfresh e (List.mem_cons_of_mem a he)
    rw [List.map_cons, idCount_cons, idCount_cons, ih hrest]
    by_cases h : a.id = tid
    · have h1 : (if a.id == tid then msg else a) = msg := by simp [h]
      rw [h1, if_pos rfl, if_pos h]
    · have h1 : (if a.id == tid then msg else a) = a := by simp [h]
      rw [h1, if_neg ha, if_neg h]

theorem idCount_map_replace_other (l : List Message) (tid i : String)
    (msg : Message) (htid : tid ≠ i) (hmsg : msg.id ≠ i) :
    idCount i (l.map fun m => if m.id == tid then msg else m)
      = idCount i l := by
  induction l with
  | nil => rfl
  | cons a l ih =>
    rw [List.map_cons, idCount_cons, idCount_cons, ih]
    by_cases h : a.id = tid
    · have h1 : (if a.id == tid then msg else a) = msg := by simp [h]
      rw [h1, if_neg hmsg, if_neg (fun he : a.id = i => htid (h ▸ he))]
    · have h1 : (if a.id == tid then msg else a) = a := by simp [h]
      rw [h1]

theorem map_replace_eq_self (l : List Message) (tid : String)
    (msg : Message) (h : ∀ e ∈ l, e.id ≠ tid) :
    (l.map fun m => if m.id == tid then msg else m) = l := by
  induction l with
  | nil => rfl
  | cons a l ih =>
    rw [List.map_cons]
    have h1 : (if a.id == tid then msg else a) = a := by
      simp [h a (List.mem_cons_self a l)]
    rw [h1, ih fun e he => h e (List.mem_cons_of_mem a he)]

theorem nodup_map_replace (l : List Message) (tid : String) (msg : Message)
    (hnodup : (l.map Message.id).Nodup)
    (hfresh : ∀ e ∈ l, e.id ≠ msg.id) :
    ((l.map fun m => if m.id == tid then msg else m).map Message.id).Nodup := by
  induction l with
  | nil => exact List.nodup_nil
  | cons a l ih =>
    rw [List.map_cons, List.nodup_cons] at hnodup
    have ha := hfresh a (List.mem_cons_self a l)
    have hrest : ∀ e ∈ l, e.id ≠ msg.id :=
      fun e he => hfresh e (List.mem_cons_of_mem a he)
    rw [List.map_cons]
    by_cases h : a.id = tid
    · have hid : ∀ e ∈ l, e.id ≠ tid := fun e he het =>
        hnodup.1 (h ▸ het ▸ List.mem_map_of_mem Message.id he)
      have h1 : (if a.id == tid then msg else a) = msg := by simp [h]
      rw [h1, map_replace_eq_self l tid msg hid, List.map_cons,
        List.nodup_cons]
      refine ⟨fun hmem => ?_, hnodup.2⟩
      rcases List.mem_map.mp hmem with ⟨e, he, hei⟩
      exact hrest e he hei
    · have h1 : (if a.id == tid then msg else a) = a := by simp [h]
      rw [h1, List.map_cons, List.nodup_cons]
      refine ⟨fun hmem => ?_, ih hnodup.2 hrest⟩
      rw [List.map_map] at hmem
      rcases List.mem_map.mp hmem with ⟨e, he, hei⟩
      by_cases het : e.id = tid
      · have h2 : (Message.id ∘ fun m => if m.id == tid then msg else m) e
            = msg.id := by simp [Function.comp, het]
        rw [h2] at hei
        exact ha hei.symm
      · have h2 : (Message.id ∘ fun m => if m.id == tid then msg else m) e
            = e.id := by simp [Function.comp, het]
        rw [h2] at hei
        exact hnodup.1 (hei ▸ List.mem_map_of_mem Message.id he)

theorem mem_of_rebuildProcessed (msgs : List Message) (i : String)
    (h : i ∈ rebuildProcessed msgs) : ∃ e ∈ msgs, e.id = i := by
  simp only [rebuildProcessed, List.mem_filter, List.mem_map] at h
  rcases h with ⟨⟨e, he, hei⟩, _⟩
  exact ⟨e, he, hei⟩

theorem nodup_filter_id (l : List Message) (p : Message → Bool)
    (h : (l.map Message.id).Nodup) :
    ((l.filter p).map Message.id).Nodup :=
  h.sublist ((List.filter_sublist l).map Message.id)

theorem nodup_append_fresh (l : List Message) (m : Message)
    (h : (l.map Message.id).Nodup) (hfresh : ∀ e ∈ l, e.id ≠ m.id) :
    ((l ++ [m]).map Message.id).Nodup := by
  rw [List.map_append, List.nodup_append]
  refine ⟨h, List.nodup_singleton _, fun x hx hx2 => ?_⟩
  rcases List.mem_map.mp hx with ⟨e, he, hei⟩
  rw [List.map_singleton, List.mem_singleton] at hx2
  exact hfresh e he (hei ▸ hx2)

theorem find?_id_none_iff (i : String) (l : List Message) :
    l.find? (fun m => m.id == i) = none ↔ ∀ e ∈ l, e.id ≠ i := by
  rw [List.find?_eq_none]
  simp

/-- Branch lemma: inbound identity already present (nodup case). -/
theorem applyInbound_present (message : Message) (prev : List Message)
    (hnodup : (prev.map Message.id).Nodup) (t : Message)
    (h1 : prev.find? (fun m => m.id == message.id) = some t) :
    applyInboundToList message prev = prev := by
  unfold applyInboundToList
  rw [deduplicateMessages_eq_self prev hnodup]
  simp only [h1]

/-- Branch lemma: inbound identity fresh, temp match found (nodup case). -/
theorem applyInbound_replace (message : Message) (prev : List Message)
    (hnodup : (prev.map Message.id).Nodup) (t : Message)
    (h1 : prev.find? (fun m => m.id == message.id) = none)
    (h2 : prev.find? (tempCandidate message) = some t) :
    applyInboundToList message prev
      = prev.map fun m => if m.id == t.id then message else m := by
  unfold applyInboundToList
  rw [deduplicateMessages_eq_self prev hnodup]
  simp only [h1, h2]

/-- Branch lemma: inbound identity fresh, no temp match (nodup case). -/
theorem applyInbound_append (message : Message) (prev : List Message)
    (hnodup : (prev.map Message.id).Nodup)
    (h1 : prev.find? (fun m => m.id == message.id) = none)
    (h2 : prev.find? (tempCandidate message) = none) :
    applyInboundToList message prev = prev ++ [message] := by
  unfold applyInboundToList
  rw [deduplicateMessages_eq_self prev hnodup]
  simp only [h1, h2]

/-- Branch lemma: HTTP confirmation when the confirmed id is absent from
the list with the temp entry removed (nodup case). -/
theorem confirmUpdate_append (tempId : String) (message : Message)
    (prev : List Message)
    (hnodup : (prev.map Message.id).Nodup)
    (h1 : (prev.filter fun m => !(m.id == tempId)).find?
        (fun m => m.id == message.id) = none) :
    confirmMessagesUpdate tempId message prev
      = (prev.filter fun m => !(m.id == tempId)) ++ [message] := by
  unfold confirmMessagesUpdate
  rw [deduplicateMessages_eq_self prev hnodup]
  simp only [h1]

/-- Branch lemma: HTTP confirmation when the confirmed id is already
present (nodup case). -/
theorem confirmUpdate_present (tempId : String) (message : Message)
    (prev : List Message)
    (hnodup : (prev.map Message.id).Nodup) (t : Message)
    (h1 : (prev.filter fun m => !(m.id == tempId)).find?
        (fun m => m.id == message.id) = some t) :
    confirmMessagesUpdate tempId message prev
      = prev.filter fun m => !(m.id == tempId) := by
  unfold confirmMessagesUpdate
  rw [deduplicateMessages_eq_self prev hnodup]
  simp only [h1]

theorem nodup_applyInbound (message : Message) (prev : List Message)
    (hnodup : (prev.map Message.id).Nodup) :
    ((applyInboundToList message prev).map Message.id).Nodup := by
  rcases h1 : prev.find? (fun m => m.id == message.id) with _ | t
  · have hfresh : ∀ e ∈ prev, e.id ≠ message.id :=
      (find?_id_none_iff message.id prev).mp h1
    rcases h2 : prev.find? (tempCandidate message) with _ | t
    · rw [applyInbound_append message prev hnodup h1 h2]
      exact nodup_append_fresh prev message hnodup hfresh
    · rw [applyInbound_replace message prev hnodup t h1 h2]
      exact nodup_map_replace prev t.id message hnodup hfresh
  · rw [applyInbound_present message prev hnodup t h1]
    exact hnodup

theorem nodup_confirmUpdate (tempId : String) (message : Message)
    (prev : List Message)
    (hnodup : (prev.map Message.id).Nodup) :
    ((confirmMessagesUpdate tempId message prev).map Message.id).Nodup := by
  have hnf := nodup_filter_id prev (fun m => !(m.id == tempId)) hnodup
  rcases h1 : (prev.filter fun m => !(m.id == tempId)).find?
      (fun m => m.id == message.id) with _ | t
  · rw [confirmUpdate_append tempId message prev hnodup h1]
    exact nodup_append_fresh _ message hnf
      ((find?_id_none_iff message.id _).mp h1)
  · rw [confirmUpdate_present tempId message prev hnodup t h1]
    exact hnf

/-- Invariant preservation for one store-level step. -/
theorem storeInv_step (s : StoreState) (op : StoreOp)
    (hinv : StoreInv s) : StoreInv (stepOp s op) := by
  rcases op with m | ⟨tempId, m⟩
  · show StoreInv (if s.processed.contains m.id then s else _)
    by_cases hc : s.processed.contains m.id
    · rwa [if_pos hc]
    · rw [if_neg hc]
      exact ⟨nodup_applyInbound m s.messages hinv.1, rfl⟩
  · exact ⟨nodup_confirmUpdate tempId m s.messages hinv.1, rfl⟩

/-- Key fact: a temp-candidate entry carries a `temp-`-namespaced id. -/
theorem tempCandidate_id (message t : Message)
    (h : tempCandidate message t = true) :
    strStartsWith t.id "temp-" = true := by
  simp only [tempCandidate, Bool.and_eq_true] at h
  exact h.1.1

/-- An inbound step whose message carries identity `i` leaves the list
with exactly one entry of identity `i`. -/
theorem idCount_inbound_establish (s : StoreState) (m : Message)
    (hinv : StoreInv s) :
    idCount m.id (stepOp s (.inbound m)).messages = 1 := by
  show idCount m.id (if s.processed.contains m.id then s else _).messages = 1
  by_cases hc : s.processed.contains m.id
  · rw [if_pos hc]
    refine idCount_eq_one m.id s.messages hinv.1 ?_
    have : m.id ∈ s.processed := by simpa using hc
    exact mem_of_rebuildProcessed s.messages m.id (hinv.2 ▸ this)
  · rw [if_neg hc]
    rcases h1 : s.messages.find? (fun x => x.id == m.id) with _ | t
    · have hfresh := (find?_id_none_iff m.id s.messages).mp h1
      rcases h2 : s.messages.find? (tempCandidate m) with _ | t
      · simp only [stepOp]
        rw [applyInbound_append m s.messages hinv.1 h1 h2,
          idCount_append, idCount_eq_zero m.id s.messages hfresh,
          idCount_cons, if_pos rfl, idCount_nil]
      · simp only [stepOp]
        rw [applyInbound_replace m s.messages hinv.1 t h1 h2,
          idCount_map_replace_target s.messages t.id m hfresh]
        exact idCount_eq_one t.id s.messages hinv.1
          ⟨t, List.mem_of_find?_eq_some h2, rfl⟩
    · simp only [stepOp]
      rw [applyInbound_present m s.messages hinv.1 t h1]
      refine idCount_eq_one m.id s.messages hinv.1
        ⟨t, List.mem_of_find?_eq_some h1, ?_⟩
      simpa using List.find?_some h1

/-- A confirmation step whose confirmed message carries identity `i`
(which is not in the `temp-` namespace, while the temporary id is) leaves
the list with exactly one entry of identity `i`. -/
theorem idCount_confirm_establish (s : StoreState) (tempId : String)
    (m : Message) (hinv : StoreInv s)
    (hi : strStartsWith m.id "temp-" = false)
    (ht : strStartsWith tempId "temp-" = true) :
    idCount m.id (stepOp s (.confirm tempId m)).messages = 1 := by
  have hne : m.id ≠ tempId := fun h => by rw [h, ht] at hi; cases hi
  have hnf := nodup_filter_id s.messages (fun x => !(x.id == tempId)) hinv.1
  rcases h1 : (s.messages.filter fun x => !(x.id == tempId)).find?
      (fun x => x.id == m.id) with _ | t
  · simp only [stepOp]
    rw [confirmUpdate_append tempId m s.messages hinv.1 h1,
      idCount_append,
      idCount_eq_zero m.id _ ((find?_id_none_iff m.id _).mp h1),
      idCount_cons, if_pos rfl, idCount_nil]
  · simp only [stepOp]
    rw [confirmUpdate_present tempId m s.messages hinv.1 t h1]
    refine idCount_eq_one m.id _ hnf
      ⟨t, List.mem_of_find?_eq_some h1, ?_⟩
    simpa using List.find?_some h1

/-- Any well-formed store-level step preserves "exactly one entry of the
non-temporary identity `i`". -/
theorem idCount_step_preserve (s : StoreState) (op : StoreOp) (i : String)
    (hinv : StoreInv s) (hwf : OpWF op)
    (hi : strStartsWith i "temp-" = false)
    (hcount : idCount i s.messages = 1) :
    idCount i (stepOp s op).messages = 1 := by
  have hpres : ∃ e ∈ s.messages, e.id = i :=
    exists_of_idCount_pos i s.messages (by omega)
  rcases op with m | ⟨tempId, m⟩
  · show idCount i (if s.processed.contains m.id then s else _).messages = 1
    by_cases hc : s.processed.contains m.id
    · rwa [if_pos hc]
    · rw [if_neg hc]
      rcases h1 : s.messages.find? (fun x => x.id == m.id) with _ | t
      · have hfresh := (find?_id_none_iff m.id s.messages).mp h1
        have hmi : m.id ≠ i := by
          rcases hpres with ⟨e, he, hei⟩
          exact fun h => hfresh e he (hei.trans h.symm)
        rcases h2 : s.messages.find? (tempCandidate m) with _ | t
        · simp only [stepOp]
          rw [applyInbound_append m s.messages hinv.1 h1 h2,
            idCount_append, idCount_cons, if_neg hmi, idCount_nil, hcount]
        · have hti : t.id ≠ i := fun h => by
            rw [← h, tempCandidate_id m t (List.find?_some h2)] at hi
            cases hi
          simp only [stepOp]
          rw [applyInbound_replace m s.messages hinv.1 t h1 h2,
            idCount_map_replace_other s.messages t.id i m hti hmi, hcount]
      · simp only [stepOp]
        rw [applyInbound_present m s.messages hinv.1 t h1, hcount]
  · have ht : strStartsWith tempId "temp-" = true := hwf
    have hne : i ≠ tempId := fun h => by rw [h, ht] at hi; cases hi
    have hcf : idCount i (s.messages.filter fun x => !(x.id == tempId)) = 1 := by
      rw [idCount_filter_ne i tempId s.messages hne, hcount]
    rcases h1 : (s.messages.filter fun x => !(x.id == tempId)).find?
        (fun x => x.id == m.id) with _ | t
    · have hmi : m.id ≠ i := by
        rcases exists_of_idCount_pos i _ (by omega : 0 < idCount i
          (s.messages.filter fun x => !(x.id == tempId))) with ⟨e, he, hei⟩
        exact fun h => (find?_id_none_iff m.id _).mp h1 e he
          (hei.trans h.symm)
      simp only [stepOp]
      rw [confirmUpdate_append tempId m s.messages hinv.1 h1,
        idCount_append, idCount_cons, if_neg hmi, idCount_nil, hcf]
    · simp only [stepOp]
      rw [confirmUpdate_present tempId m s.messages hinv.1 t h1, hcf]

/-- Any well-formed step whose operation references the non-temporary
identity `i` leaves exactly one entry of identity `i`. -/
theorem idCount_step_establish (s : StoreState) (op : StoreOp) (i : String)
    (hinv : StoreInv s) (hwf : OpWF op) (href : OpRefs i op)
    (hi : strStartsWith i "temp-" = false) :
    idCount i (stepOp s op).messages = 1 := by
  rcases op with m | ⟨tempId, m⟩
  · have h : m.id = i := href
    subst h
    exact idCount_inbound_establish s m hinv
  · have h : m.id = i := href
    subst h
    exact idCount_confirm_establish s tempId m hinv hi hwf

/-- Running any well-formed operation sequence from an invariant state
yields exactly one entry of identity `i`, provided either some operation
references `i` or the start state already holds exactly one. -/
theorem runOps_idCount (i : String)
    (hi : strStartsWith i "temp-" = false) :
    ∀ (ops : List StoreOp) (s : StoreState), StoreInv s →
      (∀ op ∈ ops, OpWF op) →
      ((∃ op ∈ ops, OpRefs i op) ∨ idCount i s.messages = 1) →
      idCount i (runOps s ops).messages = 1 := by
  intro ops
  induction ops with
  | nil =>
    intro s _ _ h
    rcases h with h | h
    · simp at h
    · exact h
  | cons op ops ih =>
    intro s hinv hwf h
    have hinv' := storeInv_step s op hinv
    have hwf' : ∀ o ∈ ops, OpWF o :=
      fun o ho => hwf o (List.mem_cons_of_mem op ho)
    show idCount i (runOps (stepOp s op) ops).messages = 1
    rcases h with h | h
    · rcases h with ⟨o, ho, href⟩
      rcases List.mem_cons.mp ho with heq | ho'
      · exact ih (stepOp s op) hinv' hwf' (Or.inr
          (idCount_step_establish s op i hinv
            (hwf op (List.mem_cons_self op ops)) (heq ▸ href) hi))
      · exact ih (stepOp s op) hinv' hwf' (Or.inl ⟨o, ho', href⟩)
    · exact ih (stepOp s op) hinv' hwf'
        (Or.inr (idCount_step_preserve s op i hinv
          (hwf op (List.mem_cons_self op ops)) hi h))

/-! Claim theorems. -/

/-- C1: for every sequence of inbound `new-message` deliveries and HTTP
send confirmations that reference the same server-assigned message
identity any number of times in any order, the conversation's message
list ends up with exactly one entry carrying that identity; re-delivering
an already-present identity leaves the list unchanged (spec P1;
ChatScreen.tsx lines 324-400 and 462-482). -/
theorem inbound_confirm_identity_appears_once (s₀ : StoreState)
    (ops : List StoreOp) (i : String)
    (hinv : StoreInv s₀)
    (hwf : ∀ op ∈ ops, OpWF op)
    (hi : strStartsWith i "temp-" = false)
    (href : ∃ op ∈ ops, OpRefs i op) :
    idCount i (runOps s₀ ops).messages = 1 :=
  runOps_idCount i hi ops s₀ hinv hwf (Or.inl href)

/-- Confirmed message already present when C1's witness sequence starts. -/
def c1Existing : Message :=
  ⟨"m-1", some "c1", some "earlier", "u2", "u1", 100⟩

/-- Provisional entry in C1's witness start state. -/
def c1Temp : Message := ⟨"temp-w1", some "c1", some "hi", "u1", "u2", 200⟩

/-- Server-confirmed counterpart of `c1Temp` in C1's witness. -/
def c1Confirmed : Message := ⟨"m-100", some "c1", some "hi", "u1", "u2", 205⟩

/-- Start state of C1's witness. -/
def c1Start : StoreState := ⟨[c1Existing, c1Temp], ["m-1"]⟩

/-- Operation sequence of C1's witness: the same server identity delivered
twice over the socket and once over the HTTP response. -/
def c1Ops : List StoreOp :=
  [.inbound c1Confirmed, .confirm "temp-w1" c1Confirmed,
    .inbound c1Confirmed]

/-- Witness for C1 at a concrete duplicate-delivery sequence. -/
theorem inbound_confirm_identity_appears_once_witness :
    (StoreInv c1Start ∧ (∀ op ∈ c1Ops, OpWF op)
        ∧ strStartsWith "m-100" "temp-" = false
        ∧ (∃ op ∈ c1Ops, OpRefs "m-100" op))
    ∧ idCount "m-100" (runOps c1Start c1Ops).messages = 1 :=
  ⟨⟨by decide, by decide, by decide, by decide⟩,
    inbound_confirm_identity_appears_once c1Start c1Ops "m-100"
      (by decide) (by decide) (by decide) (by decide)⟩

/-- C6: the send action is rejected as a no-op — no provisional message,
no request, no state change — when the conversation is unset, the text
trims to empty, or a send is already in flight
(ChatScreen.tsx lines 432-440). -/
theorem send_rejected_is_noop (currentUserId : String) (now : Int)
    (tempId : String) (s : ChatState)
    (h : s.selectedChat = none ∨ jsTrim s.newMessage = ""
      ∨ s.isSending = true) :
    sendMessageStart currentUserId now tempId s = (s, none) := by
  have hempty : jsIsEmpty "" = true := by decide
  have hcond : (jsIsEmpty (jsTrim s.newMessage)
      || !jsTruthyStr s.selectedChat || s.isSending) = true := by
    rcases h with h | h | h
    · simp [h, jsTruthyStr]
    · simp [h, hempty]
    · simp [h]
  unfold sendMessageStart
  rw [if_pos hcond]

/-- Witness for C6 at a concrete rejected send (no conversation open). -/
theorem send_rejected_is_noop_witness :
    ((initialChatState.selectedChat = none
        ∨ jsTrim initialChatState.newMessage = ""
        ∨ initialChatState.isSending = true)
      ∧ sendMessageStart "u1" 0 "temp-1" initialChatState
          = (initialChatState, none)) :=
  ⟨Or.inl rfl,
    send_rejected_is_noop "u1" 0 "temp-1" initialChatState (Or.inl rfl)⟩

/-- C8: for the active conversation, a counterpart typing-start arms the
2500 ms countdown and sets the indicator; expiry of that countdown alone
clears it, and an explicit typing-stop clears it immediately
(ChatScreen.tsx lines 406-425). -/
theorem typing_start_expiry_and_stop (currentUserId : String) (now : Int)
    (userId conversationId : String) (s : ChatState)
    (hconv : s.selectedChat = some conversationId)
    (huser : userId ≠ currentUserId) :
    (handleUserTyping currentUserId now userId conversationId s).isTyping
        = true
    ∧ (handleUserTyping currentUserId now userId conversationId
        s).typingDeadline = some (now + 2500)
    ∧ (fireTypingTimeout (handleUserTyping currentUserId now userId
        conversationId s)).isTyping = false
    ∧ (handleUserStoppedTyping currentUserId userId conversationId
        (handleUserTyping currentUserId now userId conversationId
          s)).isTyping = false := by
  refine ⟨?_, ?_, ?_, ?_⟩ <;>
    simp [handleUserTyping, handleUserStoppedTyping, fireTypingTimeout,
      hconv, huser]

/-- Witness for C8 at a concrete typing-start in the active conversation. -/
theorem typing_start_expiry_and_stop_witness :
    (({ initialChatState with selectedChat := some "c1" } :
          ChatState).selectedChat = some "c1" ∧ "u2" ≠ "u1")
    ∧ ((handleUserTyping "u1" 1000 "u2" "c1"
          { initialChatState with selectedChat := some "c1" }).isTyping
            = true
      ∧ (handleUserTyping "u1" 1000 "u2" "c1"
          { initialChatState with
            selectedChat := some "c1" }).typingDeadline = some (1000 + 2500)
      ∧ (fireTypingTimeout (handleUserTyping "u1" 1000 "u2" "c1"
          { initialChatState with selectedChat := some "c1" })).isTyping
            = false
      ∧ (handleUserStoppedTyping "u1" "u2" "c1"
          (handleUserTyping "u1" 1000 "u2" "c1"
            { initialChatState with
              selectedChat := some "c1" })).isTyping = false) :=
  ⟨⟨rfl, by decide⟩,
    typing_start_expiry_and_stop "u1" 1000 "u2" "c1"
      { initialChatState with selectedChat := some "c1" } rfl (by decide)⟩

/-- C9: while the event-stream connection is down, every outbound
ephemeral emit — typing-start/stop, mark-message-read, generic emit — is
silently dropped: nothing reaches the transport, nothing is queued, and
the service state is unchanged (socket.ts lines 205-217 and 250-254). -/
theorem disconnected_emits_dropped (s : SocketState)
    (conversationId messageId event : String) (isTyping : Bool)
    (h : s.connected = false) :
    socketSendTyping conversationId isTyping s = s
    ∧ socketMarkMessageAsRead messageId s = s
    ∧ socketEmitGeneric event s = s := by
  refine ⟨?_, ?_, ?_⟩ <;>
    simp [socketSendTyping, socketMarkMessageAsRead, socketEmitGeneric, h]

/-- Witness for C9 at a concrete disconnected service. -/
theorem disconnected_emits_dropped_witness :
    ((⟨false, []⟩ : SocketState).connected = false)
    ∧ (socketSendTyping "c1" true ⟨false, []⟩ = (⟨false, []⟩ : SocketState)
      ∧ socketMarkMessageAsRead "m-1" ⟨false, []⟩
          = (⟨false, []⟩ : SocketState)
      ∧ socketEmitGeneric "ping" ⟨false, []⟩
          = (⟨false, []⟩ : SocketState)) :=
  ⟨rfl, disconnected_emits_dropped ⟨false, []⟩ "c1" "m-1" "ping" true rfl⟩

/-- The filled conversation id is truthy, and equals the requested id
whenever the server's message had no usable conversation id. -/
theorem fillConversationId_spec (conversationId : String) (msg : Message)
    (hcid : jsIsEmpty conversationId = false) :
    jsTruthyStr (fillConversationId conversationId msg).conversationId
        = true
    ∧ (jsTruthyStr msg.conversationId = false →
        (fillConversationId conversationId msg).conversationId
          = some conversationId) := by
  unfold fillConversationId
  by_cases h : jsTruthyStr msg.conversationId = true
  · rw [if_pos h]
    exact ⟨h, fun hf => absurd h (by simp [hf])⟩
  · rw [if_neg h]
    refine ⟨?_, fun _ => rfl⟩
    show jsTruthyStr (some conversationId) = true
    simp [jsTruthyStr, hcid]

/-- C10: every successful message creation (text or image) returns a
message whose conversationId is set; when the server response omits it,
the client fills in the id the request was issued for
(api.ts lines 169-182 and 255-257). -/
theorem api_message_creation_sets_conversation
    (conversationId receiverId content : String) (resp : ApiResponseData)
    (m : Message) (hcid : jsIsEmpty conversationId = false) :
    (apiSendMessage conversationId receiverId content resp = .ok m →
      jsTruthyStr m.conversationId = true
        ∧ (jsTruthyStr (extractMessage resp).conversationId = false →
            m.conversationId = some conversationId))
    ∧ (jsTruthyStr (apiSendImageMessage conversationId receiverId
          resp).conversationId = true
      ∧ (jsTruthyStr (extractMessage resp).conversationId = false →
          (apiSendImageMessage conversationId receiverId
            resp).conversationId = some conversationId)) := by
  constructor
  · intro hok
    unfold apiSendMessage at hok
    rw [if_neg (by simp [hcid])] at hok
    have hm : fillConversationId conversationId (extractMessage resp) = m :=
      by injection hok
    exact hm ▸ fillConversationId_spec conversationId
      (extractMessage resp) hcid
  · exact fillConversationId_spec conversationId (extractMessage resp) hcid

/-- Server response of C10's witness: a top-level message without a
conversation id. -/
def c10Resp : ApiResponseData :=
  .plain ⟨"m-7", none, some "hello", "u1", "u2", 42⟩

/-- Message returned to the caller in C10's witness. -/
def c10Filled : Message := ⟨"m-7", some "c1", some "hello", "u1", "u2", 42⟩

/-- Removing the unique entry carrying `tid` shortens the list by one. -/
theorem length_filter_remove_one (l : List Message) (tid : String)
    (hnodup : (l.map Message.id).Nodup) (e : Message) (he : e ∈ l)
    (hei : e.id = tid) :
    (l.filter fun m => !(m.id == tid)).length + 1 = l.length := by
  induction l with
  | nil => cases he
  | cons a l ih =>
    rw [List.map_cons, List.nodup_cons] at hnodup
    by_cases ha : a.id = tid
    · have h1 : (a :: l).filter (fun m => !(m.id == tid))
          = l.filter (fun m => !(m.id == tid)) := by
        simp [List.filter_cons, ha]
      have h2 : l.filter (fun m => !(m.id == tid)) = l := by
        refine List.filter_eq_self.mpr fun m hm => ?_
        simp only [Bool.not_eq_true', beq_eq_false_iff_ne, ne_eq]
        exact fun het =>
          hnodup.1 (ha ▸ het ▸ List.mem_map_of_mem Message.id hm)
      rw [h1, h2, List.length_cons]
    · have h1 : (a :: l).filter (fun m => !(m.id == tid))
          = a :: l.filter (fun m => !(m.id == tid)) := by
        simp [List.filter_cons, ha]
      have he' : e ∈ l := by
        rcases List.mem_cons.mp he with rfl | h
        · exact absurd hei ha
        · exact h
      rw [h1, List.length_cons, List.length_cons, ih hnodup.2 he']

/-- Message carried by conversation A's stale reload payload (C2). -/
def staleMsgA : Message := ⟨"m-A1", some "A", some "from A", "u2", "u1", 10⟩

/-- Message carried by conversation B's reload payload (C2). -/
def staleMsgB : Message := ⟨"m-B1", some "B", some "from B", "u3", "u1", 20⟩

/-- State of C2's scenario right before the switch: conversation A open,
its reload in flight. -/
def c2Before : ChatState :=
  { initialChatState with
    selectedChat := some "A"
    isLoadingMessages := true }

/-- C2 counterexample: a reload is issued for conversation A, the user
switches to conversation B, B's reload resolves, then A's stale reload
resolves — the active conversation is still B, yet the message list now
holds A's payload.  The claim requires A's response to be discarded;
`loadMessages` (ChatScreen.tsx lines 255-287) applies `setMessages(msgs)`
with no comparison against the active conversation. -/
theorem stale_reload_applied_counterexample :
    ((resolveReload "A" [staleMsgA]
        (resolveReload "B" [staleMsgB]
          (selectConversation "B"
            c2Before))).selectedChat = some "B")
    ∧ ((resolveReload "B" [staleMsgB]
        (selectConversation "B"
          c2Before)).messages = [staleMsgB])
    ∧ ((resolveReload "A" [staleMsgA]
        (resolveReload "B" [staleMsgB]
          (selectConversation "B"
            c2Before))).messages = [staleMsgA])
    ∧ [staleMsgA] ≠ [staleMsgB] :=
  ⟨rfl, rfl, rfl, by decide⟩

/-- C2 amended: when a reload issued for conversation `a` resolves, its
payload is applied to the message list unconditionally — even when the
active conversation no longer matches `a` — because `loadMessages` carries
no stale-response guard. -/
theorem stale_reload_applied (s : ChatState) (a : String)
    (msgs : List Message) (h : s.selectedChat ≠ some a) :
    (resolveReload a msgs s).messages = msgs
    ∧ (resolveReload a msgs s).selectedChat = s.selectedChat :=
  ⟨rfl, rfl⟩

/-- Witness for the amended C2 at the concrete stale scenario. -/
theorem stale_reload_applied_witness :
    ((resolveReload "B" [staleMsgB]
        (selectConversation "B"
          c2Before)).selectedChat ≠ some "A")
    ∧ ((resolveReload "A" [staleMsgA] (resolveReload "B" [staleMsgB]
          (selectConversation "B"
            c2Before))).messages = [staleMsgA]
      ∧ (resolveReload "A" [staleMsgA] (resolveReload "B" [staleMsgB]
          (selectConversation "B"
            c2Before))).selectedChat
          = (resolveReload "B" [staleMsgB]
            (selectConversation "B"
              c2Before)).selectedChat) :=
  ⟨by decide,
    stale_reload_applied
      (resolveReload "B" [staleMsgB]
        (selectConversation "B"
          c2Before))
      "A" [staleMsgA] (by decide)⟩

/-- Background conversation c1 with counterpart u2 (C3). -/
def c3Conv : Conversation := ⟨"c1", "u2", none, 0⟩

/-- State while conversation c2 is open and c1 is in the background (C3). -/
def c3S0 : ChatState :=
  { initialChatState with
    conversations := [c3Conv]
    selectedChat := some "c2" }

/-- Self-sent message (sender = current user u1) for the background
conversation c1 (C3). -/
def c3SelfMsg : Message :=
  ⟨"m-500", some "c1", some "on my way", "u1", "u2", 50⟩

/-- C3 (code divergence, evaluated at the failing input): an inbound
`new-message` whose sender is the current user u1 and whose conversation
c1 is not the active one increments c1's unread counter from 0 to 1,
because the background-branch conversation lookup (ChatScreen.tsx lines
390-393) also matches messages the current user sent; the claim requires
that no unread counter change for self-sent messages. -/
theorem self_message_increments_unread :
    c3SelfMsg.senderId = "u1"
    ∧ c3S0.selectedChat = some "c2"
    ∧ c3S0.unreadCounts "c1" = 0
    ∧ (handleNewMessage "u1" c3SelfMsg c3S0).unreadCounts "c1" = 1 :=
  ⟨rfl, rfl, rfl, by decide⟩

/-- Provisional entry sitting at position 0 of the list (C4). -/
def c4Tmp : Message := ⟨"temp-1", some "c1", some "hi", "u1", "u2", 100⟩

/-- Counterpart message that arrived after the provisional insert,
occupying position 1 (C4). -/
def c4Other : Message := ⟨"m-2", some "c1", some "yo", "u2", "u1", 150⟩

/-- Server confirmation of the provisional entry (C4). -/
def c4Conf : Message := ⟨"m-100", some "c1", some "hi", "u1", "u2", 120⟩

/-- C4 counterexample: the provisional entry occupies position 0, but the
HTTP-path confirmation (ChatScreen.tsx lines 466-482) filters it out and
appends the confirmed message, which therefore ends at position 1, not at
position 0 as the claim requires. -/
theorem confirm_position_counterexample :
    [c4Tmp, c4Other][0]? = some c4Tmp
    ∧ confirmMessagesUpdate "temp-1" c4Conf [c4Tmp, c4Other]
        = [c4Other, c4Conf]
    ∧ (confirmMessagesUpdate "temp-1" c4Conf [c4Tmp, c4Other])[0]?
        ≠ some c4Conf
    ∧ (confirmMessagesUpdate "temp-1" c4Conf [c4Tmp, c4Other]).length
        = [c4Tmp, c4Other].length := by
  decide

/-- C4 amended: event-path confirmation replaces the provisional entry in
place — the confirmed message occupies the provisional entry's position
and the length is unchanged; HTTP-path confirmation instead removes the
provisional entry and appends the confirmed message at the tail, with the
length unchanged, so the position is preserved only when the provisional
entry was last (ChatScreen.tsx lines 366-380 and 466-482). -/
theorem confirm_replacement_paths (prev : List Message)
    (message t : Message) (k : Nat) (tempId : String)
    (hnodup : (prev.map Message.id).Nodup)
    (hfresh : ∀ m ∈ prev, m.id ≠ message.id) :
    (prev.find? (tempCandidate message) = some t →
        (prev[k]? = some t →
          (applyInboundToList message prev)[k]? = some message)
        ∧ (applyInboundToList message prev).length = prev.length)
    ∧ (confirmMessagesUpdate tempId message prev
        = (prev.filter fun m => !(m.id == tempId)) ++ [message])
    ∧ (∀ e ∈ prev, e.id = tempId →
        (confirmMessagesUpdate tempId message prev).length
          = prev.length) := by
  have h1 : prev.find? (fun m => m.id == message.id) = none :=
    (find?_id_none_iff message.id prev).mpr hfresh
  have hflt : ∀ e ∈ prev.filter (fun m => !(m.id == tempId)),
      e.id ≠ message.id :=
    fun e he => hfresh e (List.mem_of_mem_filter he)
  have h2 : (prev.filter fun m => !(m.id == tempId)).find?
      (fun m => m.id == message.id) = none :=
    (find?_id_none_iff message.id _).mpr hflt
  refine ⟨fun hfind => ⟨fun hk => ?_, ?_⟩, ?_, fun e he hei => ?_⟩
  · rw [applyInbound_replace message prev hnodup t h1 hfind,
      List.getElem?_map, hk]
    simp
  · rw [applyInbound_replace message prev hnodup t h1 hfind,
      List.length_map]
  · exact confirmUpdate_append tempId message prev hnodup h2
  · rw [confirmUpdate_append tempId message prev hnodup h2,
      List.length_append]
    have hlen := length_filter_remove_one prev tempId hnodup e he hei
    simp only [List.length_singleton]
    omega

/-- Witness for the amended C4 at a concrete two-element list. -/
theorem confirm_replacement_paths_witness :
    ((([c4Tmp, c4Other].map Message.id).Nodup)
      ∧ (∀ m ∈ [c4Tmp, c4Other], m.id ≠ c4Conf.id))
    ∧ (([c4Tmp, c4Other].find? (tempCandidate c4Conf) = some c4Tmp →
          ([c4Tmp, c4Other][0]? = some c4Tmp →
            (applyInboundToList c4Conf [c4Tmp, c4Other])[0]? = some c4Conf)
          ∧ (applyInboundToList c4Conf [c4Tmp, c4Other]).length
              = [c4Tmp, c4Other].length)
      ∧ (confirmMessagesUpdate "temp-1" c4Conf [c4Tmp, c4Other]
          = ([c4Tmp, c4Other].filter fun m => !(m.id == "temp-1"))
            ++ [c4Conf])
      ∧ (∀ e ∈ [c4Tmp, c4Other], e.id = "temp-1" →
          (confirmMessagesUpdate "temp-1" c4Conf
            [c4Tmp, c4Other]).length = [c4Tmp, c4Other].length)) :=
  ⟨⟨by decide, by decide⟩,
    confirm_replacement_paths [c4Tmp, c4Other] c4Conf c4Tmp 0 "temp-1"
      (by decide) (by decide)⟩

/-- Provisional entry created at local time 0 (C5). -/
def c5Tmp : Message := ⟨"temp-9", some "c1", some "hi", "u2", "u1", 0⟩

/-- Inbound message with the same sender and payload but a creation time
1000000000000 ms — about 31.7 years — later (C5). -/
def c5In : Message :=
  ⟨"m-9", some "c1", some "hi", "u2", "u1", 1000000000000⟩

/-- C5 counterexample: the handler replaces the provisional entry although
the creation times are about 31.7 years apart, so replacement is not
restricted to fingerprints "created within a short local time window"
(here instantiated at the spec's ~2.5 s scale): the match on
ChatScreen.tsx lines 368-370 compares only sender and content. -/
theorem fingerprint_time_window_counterexample :
    applyInboundToList c5In [c5Tmp] = [c5In]
    ∧ ¬ specFingerprintMatch 2500 c5Tmp c5In
    ∧ c5In.createdAt - c5Tmp.createdAt = 1000000000000 := by
  refine ⟨by decide, fun h => ?_, by decide⟩
  have h1 : c5In.createdAt - c5Tmp.createdAt ≤ 2500 := h.2.2.1
  have h2 : c5In.createdAt - c5Tmp.createdAt = 1000000000000 := by decide
  omega

/-- C5 amended: when the inbound identity is not already present, the
handler replaces the first provisional entry whose sender and payload both
equal the inbound message's — with no condition at all on creation times —
and appends at the tail when no such provisional entry exists
(ChatScreen.tsx lines 366-380). -/
theorem inbound_match_is_sender_content_only (prev : List Message)
    (message t : Message)
    (hnodup : (prev.map Message.id).Nodup)
    (hfresh : ∀ m ∈ prev, m.id ≠ message.id) :
    ((∀ m ∈ prev, tempCandidate message m = false) →
        applyInboundToList message prev = prev ++ [message])
    ∧ (prev.find? (tempCandidate message) = some t →
        applyInboundToList message prev
          = prev.map fun m => if m.id == t.id then message else m) := by
  have h1 : prev.find? (fun m => m.id == message.id) = none :=
    (find?_id_none_iff message.id prev).mpr hfresh
  refine ⟨fun hno => ?_, fun hfind => ?_⟩
  · exact applyInbound_append message prev hnodup h1
      (List.find?_eq_none.mpr fun x hx => by simp [hno x hx])
  · exact applyInbound_replace message prev hnodup t h1 hfind

/-- Witness for the amended C5 at the concrete 31.7-year-apart pair. -/
theorem inbound_match_is_sender_content_only_witness :
    ((([c5Tmp].map Message.id).Nodup)
      ∧ (∀ m ∈ [c5Tmp], m.id ≠ c5In.id))
    ∧ (((∀ m ∈ [c5Tmp], tempCandidate c5In m = false) →
          applyInboundToList c5In [c5Tmp] = [c5Tmp] ++ [c5In])
      ∧ ([c5Tmp].find? (tempCandidate c5In) = some c5Tmp →
          applyInboundToList c5In [c5Tmp]
            = [c5Tmp].map fun m => if m.id == c5Tmp.id then c5In else m)) :=
  ⟨⟨by decide, by decide⟩,
    inbound_match_is_sender_content_only [c5Tmp] c5In c5Tmp (by decide)
      (by decide)⟩

/-- C7: if the HTTP persistence request of a send fails, the optimistic
provisional entry is removed, the draft input is restored to the sent
content, an error is surfaced, and every confirmed (non-provisional)
message present before the send remains in the list unchanged
(ChatScreen.tsx lines 432-494). -/
theorem send_failure_rolls_back (currentUserId : String) (now : Int)
    (tempId : String) (s : ChatState)
    (hfind : (s.conversations.find? fun c =>
        some c.id == s.selectedChat).isSome = true)
    (htrim : jsIsEmpty (jsTrim s.newMessage) = false)
    (hsel : jsTruthyStr s.selectedChat = true)
    (hsending : s.isSending = false)
    (htemp : strStartsWith tempId "temp-" = true)
    (hclean : ∀ m ∈ s.messages, strStartsWith m.id "temp-" = false) :
    ∃ req : SendRequest,
      (sendMessageStart currentUserId now tempId s).2 = some req
      ∧ req.content = jsTrim s.newMessage
      ∧ (sendMessageFailure req.content
            (sendMessageStart currentUserId now tempId s).1).messages
          = s.messages
      ∧ (sendMessageFailure req.content
            (sendMessageStart currentUserId now tempId s).1).newMessage
          = jsTrim s.newMessage
      ∧ (sendMessageFailure req.content
            (sendMessageStart currentUserId now tempId s).1).alerts
          = s.alerts ++ ["Failed to send message"]
      ∧ (sendMessageFailure req.content
            (sendMessageStart currentUserId now tempId s).1).isSending
          = false
      ∧ ∀ m ∈ (sendMessageFailure req.content
            (sendMessageStart currentUserId now tempId s).1).messages,
          m.id ≠ tempId := by
  rcases hc : s.conversations.find? (fun c => some c.id == s.selectedChat)
    with _ | conv
  · rw [hc] at hfind
    cases hfind
  · have hcond : (jsIsEmpty (jsTrim s.newMessage)
        || !jsTruthyStr s.selectedChat || s.isSending) = false := by
      simp [htrim, hsel, hsending]
    have hstart : sendMessageStart currentUserId now tempId s
        = ({ s with
              isSending := true
              newMessage := ""
              messages := s.messages ++ [⟨tempId, some conv.id,
                some (jsTrim s.newMessage), currentUserId,
                conv.participantId, now⟩]
              processedMessageIds := rebuildProcessed (s.messages
                ++ [⟨tempId, some conv.id, some (jsTrim s.newMessage),
                  currentUserId, conv.participantId, now⟩]) },
            some ⟨conv.id, conv.participantId, jsTrim s.newMessage,
              tempId⟩) := by
      unfold sendMessageStart
      rw [hc, hcond]
      rfl
    have hmsgs : ∀ content : String,
        (sendMessageFailure content
            (sendMessageStart currentUserId now tempId s).1).messages
          = s.messages := by
      intro content
      rw [hstart]
      show ((s.messages ++ [_]).filter
        fun m => !(strStartsWith m.id "temp-")) = s.messages
      rw [List.filter_append]
      have hkeep : s.messages.filter
          (fun m => !(strStartsWith m.id "temp-")) = s.messages :=
        List.filter_eq_self.mpr fun m hm => by simp [hclean m hm]
      have hdrop : ([(⟨tempId, some conv.id, some (jsTrim s.newMessage),
            currentUserId, conv.participantId, now⟩ : Message)]).filter
          (fun m => !(strStartsWith m.id "temp-")) = [] := by
        simp [List.filter, htemp]
      rw [hkeep, hdrop, List.append_nil]
    refine ⟨⟨conv.id, conv.participantId, jsTrim s.newMessage, tempId⟩,
      by rw [hstart], rfl, hmsgs _, ?_, ?_, ?_, ?_⟩
    · rw [hstart]
      rfl
    · rw [hstart]
      rfl
    · rw [hstart]
      rfl
    · rw [hmsgs]
      intro m hm hmid
      have hmtemp := hclean m hm
      rw [hmid, htemp] at hmtemp
      cases hmtemp

/-- Conversation open in C7's witness. -/
def c7Conv : Conversation := ⟨"c1", "u2", none, 0⟩

/-- Confirmed message already on screen before C7's witness send. -/
def c7Prev : Message := ⟨"m-1", some "c1", some "earlier", "u2", "u1", 5⟩

/-- State right before the failing send of C7's witness. -/
def c7S0 : ChatState :=
  { initialChatState with
    conversations := [c7Conv]
    selectedChat := some "c1"
    newMessage := " hello "
    messages := [c7Prev] }

/-- Witness for C7 at a concrete failing send. -/
theorem send_failure_rolls_back_witness :
    ((c7S0.conversations.find? fun c =>
          some c.id == c7S0.selectedChat).isSome = true
      ∧ jsIsEmpty (jsTrim c7S0.newMessage) = false
      ∧ jsTruthyStr c7S0.selectedChat = true
      ∧ c7S0.isSending = false
      ∧ strStartsWith "temp-42" "temp-" = true
      ∧ (∀ m ∈ c7S0.messages, strStartsWith m.id "temp-" = false))
    ∧ (∃ req : SendRequest,
        (sendMessageStart "u1" 99 "temp-42" c7S0).2 = some req
        ∧ req.content = jsTrim c7S0.newMessage
        ∧ (sendMessageFailure req.content
              (sendMessageStart "u1" 99 "temp-42" c7S0).1).messages
            = c7S0.messages
        ∧ (sendMessageFailure req.content
              (sendMessageStart "u1" 99 "temp-42" c7S0).1).newMessage
            = jsTrim c7S0.newMessage
        ∧ (sendMessageFailure req.content
              (sendMessageStart "u1" 99 "temp-42" c7S0).1).alerts
            = c7S0.alerts ++ ["Failed to send message"]
        ∧ (sendMessageFailure req.content
              (sendMessageStart "u1" 99 "temp-42" c7S0).1).isSending
            = false
        ∧ ∀ m ∈ (sendMessageFailure req.content
              (sendMessageStart "u1" 99 "temp-42" c7S0).1).messages,
            m.id ≠ "temp-42") :=
  ⟨⟨by decide, by decide, by decide, rfl, by decide, by decide⟩,
    send_failure_rolls_back "u1" 99 "temp-42" c7S0 (by decide) (by decide)
      (by decide) rfl (by decide) (by decide)⟩

/-- Witness for C10 at a concrete response missing conversationId. -/
theorem api_message_creation_sets_conversation_witness :
    (jsIsEmpty "c1" = false
      ∧ apiSendMessage "c1" "u2" "hello" c10Resp = .ok c10Filled)
    ∧ ((apiSendMessage "c1" "u2" "hello" c10Resp = .ok c10Filled →
        jsTruthyStr c10Filled.conversationId = true
          ∧ (jsTruthyStr (extractMessage c10Resp).conversationId = false →
              c10Filled.conversationId = some "c1"))
      ∧ (jsTruthyStr (apiSendImageMessage "c1" "u2"
            c10Resp).conversationId = true
        ∧ (jsTruthyStr (extractMessage c10Resp).conversationId = false →
            (apiSendImageMessage "c1" "u2" c10Resp).conversationId
              = some "c1"))) :=
  ⟨⟨by decide, by rfl⟩,
    api_message_creation_sets_conversation "c1" "u2" "hello" c10Resp
      c10Filled (by decide)⟩

end ConnectX
